import Mathlib

/-!
Verification development for the chip8-emu repository.

The Rust sources are embedded shallowly:
* machine integers (`u8`, `u16`) become `Nat` with explicit `% 256` / `% 65536`
  at the points where the Rust code wraps (release-mode wrapping semantics);
* `i8` arithmetic in `sub`/`subn` becomes `Int` arithmetic wrapped to the
  signed byte range;
* fallible operations (`Ram` accesses, `execute`) return `Except`;
* the SDL canvas is not modelled: `Display.draw` presents the grid and leaves
  it unchanged, `Display.clear` blanks it.
-/

namespace Chip8Emu

/-- `u8` truncation: the value of a Rust `as u8` cast / wrapping `u8` op. -/
def u8 (n : Nat) : Nat := n % 256

/-- `u16` truncation: release-mode wrapping of `u16` arithmetic. -/
def u16 (n : Nat) : Nat := n % 65536

/-- src/emu/chip8.rs: `pub const WORD_SIZE: u16 = 2;` -/
def WORD_SIZE : Nat := 2

/-- src/emu/chip8.rs: the `Chip8Error` enum. -/
inductive Chip8Error where
  | failedToDecodeOpcode
deriving DecidableEq

/-- src/emu/chip8.rs: the `Instruction` enum (34 tags). -/
inductive Instruction where
  | CLS | RET | JMP | JMPV0 | CALL
  | LD | LDR | LDRI | LDRDT | LDDTR | LDRST | LDK | LDSR | LDB | LDRIR | LDRRI
  | SE | SER | SNE | SNER
  | ADD | ADDR | ADDRI | SUB | SUBN
  | AND | OR | XOR | SHR | SHL
  | RND | DRW | SKP | SKNP
deriving DecidableEq

/-- src/emu/chip8.rs `Chip8::decode`: chained equality / mask tests on the
16-bit opcode, with nested `match` on the low nibble (class `0x8`) or the
low byte (classes `0xE`, `0xF`). -/
def decode (opcode : Nat) : Except Chip8Error Instruction :=
  if opcode = 0x00E0 then .ok .CLS
  else if opcode = 0x00EE then .ok .RET
  else if opcode &&& 0xF000 = 0x1000 then .ok .JMP
  else if opcode &&& 0xF000 = 0x2000 then .ok .CALL
  else if opcode &&& 0xF000 = 0x3000 then .ok .SE
  else if opcode &&& 0xF000 = 0x4000 then .ok .SNE
  else if opcode &&& 0xF000 = 0x5000 then .ok .SER
  else if opcode &&& 0xF000 = 0x6000 then .ok .LD
  else if opcode &&& 0xF000 = 0x7000 then .ok .ADD
  else if opcode &&& 0xF000 = 0x8000 then
    match opcode &&& 0x000F with
    | 0x0 => .ok .LDR
    | 0x1 => .ok .OR
    | 0x2 => .ok .AND
    | 0x3 => .ok .XOR
    | 0x4 => .ok .ADDR
    | 0x5 => .ok .SUB
    | 0x6 => .ok .SHR
    | 0x7 => .ok .SUBN
    | 0xE => .ok .SHL
    | _ => .error .failedToDecodeOpcode
  else if opcode &&& 0xF000 = 0x9000 then .ok .SNER
  else if opcode &&& 0xF000 = 0xA000 then .ok .LDRI
  else if opcode &&& 0xF000 = 0xB000 then .ok .JMPV0
  else if opcode &&& 0xF000 = 0xC000 then .ok .RND
  else if opcode &&& 0xF000 = 0xD000 then .ok .DRW
  else if opcode &&& 0xF000 = 0xE000 then
    match opcode &&& 0x00FF with
    | 0x9E => .ok .SKP
    | 0xA1 => .ok .SKNP
    | _ => .error .failedToDecodeOpcode
  else if opcode &&& 0xF000 = 0xF000 then
    match opcode &&& 0x00FF with
    | 0x07 => .ok .LDRDT
    | 0x0A => .ok .LDK
    | 0x15 => .ok .LDDTR
    | 0x18 => .ok .LDRST
    | 0x1E => .ok .ADDRI
    | 0x29 => .ok .LDSR
    | 0x33 => .ok .LDB
    | 0x55 => .ok .LDRIR
    | 0x65 => .ok .LDRRI
    | _ => .error .failedToDecodeOpcode
  else .error .failedToDecodeOpcode

/-- The documented opcode table of spec section 4.2, written from the spec
words (exact matches first, then the top nibble selects the class, with the
`0x8` / `0xE` / `0xF` classes dispatching on the low nibble / low byte).
This is the refinement reference that `decode` is compared against. -/
def decodeSpecTable (opcode : Nat) : Except Chip8Error Instruction :=
  if opcode = 0x00E0 then .ok .CLS
  else if opcode = 0x00EE then .ok .RET
  else
    match opcode / 4096 % 16 with
    | 0x1 => .ok .JMP
    | 0x2 => .ok .CALL
    | 0x3 => .ok .SE
    | 0x4 => .ok .SNE
    | 0x5 => .ok .SER
    | 0x6 => .ok .LD
    | 0x7 => .ok .ADD
    | 0x8 =>
      match opcode % 16 with
      | 0x0 => .ok .LDR
      | 0x1 => .ok .OR
      | 0x2 => .ok .AND
      | 0x3 => .ok .XOR
      | 0x4 => .ok .ADDR
      | 0x5 => .ok .SUB
      | 0x6 => .ok .SHR
      | 0x7 => .ok .SUBN
      | 0xE => .ok .SHL
      | _ => .error .failedToDecodeOpcode
    | 0x9 => .ok .SNER
    | 0xA => .ok .LDRI
    | 0xB => .ok .JMPV0
    | 0xC => .ok .RND
    | 0xD => .ok .DRW
    | 0xE =>
      match opcode % 256 with
      | 0x9E => .ok .SKP
      | 0xA1 => .ok .SKNP
      | _ => .error .failedToDecodeOpcode
    | 0xF =>
      match opcode % 256 with
      | 0x07 => .ok .LDRDT
      | 0x0A => .ok .LDK
      | 0x15 => .ok .LDDTR
      | 0x18 => .ok .LDRST
      | 0x1E => .ok .ADDRI
      | 0x29 => .ok .LDSR
      | 0x33 => .ok .LDB
      | 0x55 => .ok .LDRIR
      | 0x65 => .ok .LDRRI
      | _ => .error .failedToDecodeOpcode
    | _ => .error .failedToDecodeOpcode

/-! ## src/src/emu/io.rs -/

/-- src/emu/io.rs: `pub const GRID_WIDTH: usize = 64;` -/
def GRID_WIDTH : Nat := 64

/-- src/emu/io.rs: `pub const GRID_HEIGHT: usize = 32;` -/
def GRID_HEIGHT : Nat := 32

/-- src/emu/io.rs `Display`: only the `grid: [u8; GRID_WIDTH * GRID_HEIGHT]`
field is modelled; the SDL window/canvas fields are presentation resources
outside the core (spec section 1). `grid` maps the flat index
`y * GRID_WIDTH + x` to the stored `u8` cell value. -/
structure Display where
  grid : Nat → Nat

/-- src/emu/io.rs `Display::set_pixel`: `self.grid[y * GRID_WIDTH + x] = new_pixel`. -/
def Display.set_pixel (d : Display) (x y new_pixel : Nat) : Display :=
  { grid := fun idx => if idx = y * GRID_WIDTH + x then new_pixel else d.grid idx }

/-- src/emu/io.rs `Display::get_pixel`: `self.grid[y * GRID_WIDTH + x]`. -/
def Display.get_pixel (d : Display) (x y : Nat) : Nat :=
  d.grid (y * GRID_WIDTH + x)

/-- src/emu/io.rs `Display::draw`: renders the grid to the SDL canvas and
presents it; the grid itself is not modified, so on the model it is the
identity. -/
def Display.draw (d : Display) : Display := d

/-- src/emu/io.rs `Display::clear`: `self.grid.fill(0)` (plus canvas
presentation, not modelled). -/
def Display.clear (_d : Display) : Display :=
  { grid := fun _ => 0 }

/-- The SDL keycodes that `Keyboard::press_key` distinguishes: the sixteen
mapped keys plus a catch-all for every other keycode. -/
inductive Keycode where
  | num1 | num2 | num3 | num4
  | q | w | e | r
  | a | s | d | f
  | z | x | c | v
  | otherKey
deriving DecidableEq

/-- src/emu/io.rs `Keyboard`: a single `key: u8` field. -/
structure Keyboard where
  key : Nat
deriving DecidableEq

/-- src/emu/io.rs `Keyboard::new`: `Self { key: 0x0 }`. -/
def Keyboard.new : Keyboard := ⟨0x0⟩

/-- src/emu/io.rs `Keyboard::press_key`: maps the sixteen SDL keycodes to
hex key values; any other keycode leaves the state unchanged. -/
def Keyboard.press_key (_kb : Keyboard) (k : Keycode) : Keyboard :=
  match k with
  | .num1 => ⟨0x1⟩
  | .num2 => ⟨0x2⟩
  | .num3 => ⟨0x3⟩
  | .num4 => ⟨0xC⟩
  | .q => ⟨0x4⟩
  | .w => ⟨0x5⟩
  | .e => ⟨0x6⟩
  | .r => ⟨0xD⟩
  | .a => ⟨0x7⟩
  | .s => ⟨0x8⟩
  | .d => ⟨0x9⟩
  | .f => ⟨0xE⟩
  | .z => ⟨0xA⟩
  | .x => ⟨0x0⟩
  | .c => ⟨0xB⟩
  | .v => ⟨0xF⟩
  | .otherKey => _kb

/-- src/emu/io.rs `Keyboard::release_key`: `self.key = 0x0`. -/
def Keyboard.release_key (_kb : Keyboard) : Keyboard := ⟨0x0⟩

/-- src/emu/io.rs `Keyboard::get_pressed_key`:
`if self.key != 0x0 { Some(self.key) } else { None }`. -/
def Keyboard.get_pressed_key (kb : Keyboard) : Option Nat :=
  if kb.key ≠ 0x0 then some kb.key else none

/-- src/emu/io.rs `Keyboard::is_key_pressed`: `self.key == key`. -/
def Keyboard.is_key_pressed (kb : Keyboard) (key : Nat) : Bool :=
  kb.key == key

/-! ## src/src/ram.rs -/

/-- src/ram.rs: `const RAM_SIZE: usize = 4_096;` -/
def RAM_SIZE : Nat := 4096

/-- src/ram.rs: `const RESERVED_SIZE: usize = 80;` -/
def RESERVED_SIZE : Nat := 80

/-- src/ram.rs: `const DEFAULT_PROGRAM_START_OFFSET: usize = 0x200usize;` -/
def DEFAULT_PROGRAM_START_OFFSET : Nat := 0x200

/-- src/ram.rs: the `RamError` enum. -/
inductive RamError where
  | notEnoughSpace
  | outOfBound
deriving DecidableEq

/-- src/ram.rs `Ram`: the `data: [u8; RAM_SIZE]` array, modelled as a map
from address to stored byte (only addresses `< RAM_SIZE` are ever accessed
through the checked operations below). -/
structure Ram where
  data : Nat → Nat

/-- src/ram.rs `Ram::new`: the 16-glyph, 5-bytes-per-glyph font sprite
table copied into addresses `[0, RESERVED_SIZE)`. -/
def fontSprites : List Nat :=
  [0xF0, 0x90, 0x90, 0x90, 0xF0,
   0x20, 0x60, 0x20, 0x20, 0x70,
   0xF0, 0x10, 0xF0, 0x80, 0xF0,
   0xF0, 0x10, 0xF0, 0x10, 0xF0,
   0x90, 0x90, 0xF0, 0x10, 0x10,
   0xF0, 0x80, 0xF0, 0x10, 0xF0,
   0xF0, 0x80, 0xF0, 0x90, 0xF0,
   0xF0, 0x10, 0x20, 0x40, 0x40,
   0xF0, 0x90, 0xF0, 0x90, 0xF0,
   0xF0, 0x90, 0xF0, 0x10, 0xF0,
   0xF0, 0x90, 0xF0, 0x90, 0x90,
   0xE0, 0x90, 0xE0, 0x90, 0xE0,
   0xF0, 0x80, 0x80, 0x80, 0xF0,
   0xE0, 0x90, 0x90, 0x90, 0xE0,
   0xF0, 0x80, 0xF0, 0x80, 0xF0,
   0xF0, 0x80, 0xF0, 0x80, 0x80]

/-- src/ram.rs `Ram::new`: a zeroed `[0; RAM_SIZE]` array whose first
`RESERVED_SIZE` bytes are then overwritten with the sprite table. -/
def Ram.new : Ram :=
  ⟨fun i => if i < RESERVED_SIZE then fontSprites.getD i 0 else 0⟩

/-- src/ram.rs `Ram::load`: size check against
`RAM_SIZE - DEFAULT_PROGRAM_START_OFFSET`, then the copy loop
`self.data[i + DEFAULT_PROGRAM_START_OFFSET] = *byte`. -/
def Ram.load (r : Ram) (data : List Nat) : Except RamError Ram :=
  if data.length ≤ RAM_SIZE - DEFAULT_PROGRAM_START_OFFSET then
    .ok ⟨fun a =>
      if DEFAULT_PROGRAM_START_OFFSET ≤ a ∧
          a - DEFAULT_PROGRAM_START_OFFSET < data.length then
        data.getD (a - DEFAULT_PROGRAM_START_OFFSET) 0
      else r.data a⟩
  else .error .notEnoughSpace

/-- src/ram.rs `Ram::read_byte`. -/
def Ram.read_byte (r : Ram) (address : Nat) : Except RamError Nat :=
  if address < RAM_SIZE then .ok (r.data address) else .error .outOfBound

/-- src/ram.rs `Ram::write_byte`. -/
def Ram.write_byte (r : Ram) (address value : Nat) : Except RamError Ram :=
  if address < RAM_SIZE then
    .ok ⟨fun a => if a = address then value else r.data a⟩
  else .error .outOfBound

/-- src/ram.rs `Ram::read_word`: big-endian combination
`(data[address] as u16) << 8 | data[address + 1] as u16`. -/
def Ram.read_word (r : Ram) (address : Nat) : Except RamError Nat :=
  if address < RAM_SIZE - 1 then
    .ok ((r.data address <<< 8) ||| r.data (address + 1))
  else .error .outOfBound

/-- src/ram.rs `Ram::write_word`: high byte at `address`, low byte at
`address + 1`. -/
def Ram.write_word (r : Ram) (address value : Nat) : Except RamError Ram :=
  if address < RAM_SIZE - 1 then
    .ok ⟨fun a =>
      if a = address then (value >>> 8) % 256
      else if a = address + 1 then value % 256
      else r.data a⟩
  else .error .outOfBound

/-! ## Register file

Modelled from the spec: the `Registers` struct used by src/emu/chip8.rs
lives in `src/emu/memory.rs`, which is not among the provided sources;
spec section 3 describes it as PC (16-bit), I (16-bit index), DT (8-bit
delay timer), 16 general-purpose 8-bit registers V0..VF, and a call stack
of 16-bit return addresses. The call stack `sp` (a growable vector whose
`push`/`pop` operate on the top) is modelled as a list with the most
recently pushed address at the head. -/
structure Registers where
  pc : Nat
  i : Nat
  dt : Nat
  sp : List Nat
  v : Nat → Nat

/-- Write of general register `x`: `self.registers.v[x] = val`. -/
def Registers.vset (r : Registers) (x val : Nat) : Registers :=
  { r with v := fun j => if j = x then val else r.v j }

/-! ## i8 arithmetic helpers for `sub` / `subn`

Release-mode Rust semantics: `as i8` truncates to the signed byte range,
and `i8` subtraction wraps two's-complement. -/

/-- The value of a Rust `as i8` cast applied to a byte-valued quantity. -/
def toI8 (n : Nat) : Int :=
  if n % 256 < 128 then (n % 256 : Int) else (n % 256 : Int) - 256

/-- Two's-complement wrap of an `Int` into the `i8` range `[-128, 128)`. -/
def i8wrap (z : Int) : Int := (z + 128) % 256 - 128

/-- The value of a Rust `as u8` cast applied to an `i8` quantity. -/
def i8AsU8 (z : Int) : Nat := (z % 256).toNat

/-! ## src/src/emu/chip8.rs: machine state and instruction bodies -/

/-- src/emu/chip8.rs `Chip8Error` extended with the failure modes `execute`
can actually hit: a propagated `RamError` (returned as `Err` by the
memory-touching instructions) and the `unwrap` panic of `ret` on an empty
call stack, which aborts the process. -/
inductive ExecFailure where
  | ramError (e : RamError)
  | emptyStackPanic
deriving DecidableEq

/-- src/emu/chip8.rs `Chip8`: the owning aggregate. The SDL event pump and
wall clock are replaced by two oracle fields: `rnd_engine` is the value the
thread RNG's `gen_range(0..0xFF)` returns next, and `delay_elapsed_ms` is
the number of wall-clock milliseconds since the delay timer was last set. -/
structure Chip8 where
  display : Display
  keyboard : Keyboard
  ram : Ram
  registers : Registers
  rnd_engine : Nat
  delay_elapsed_ms : Nat

/-- src/emu/chip8.rs `Chip8::cls`. -/
def cls (c : Chip8) : Chip8 :=
  { c with display := c.display.clear,
           registers := { c.registers with pc := u16 (c.registers.pc + WORD_SIZE) } }

/-- src/emu/chip8.rs `Chip8::ret`:
`self.registers.pc = self.registers.sp.pop().unwrap();` — the `unwrap`
panics (aborting the process) when the stack is empty. -/
def ret (c : Chip8) : Except ExecFailure Chip8 :=
  match c.registers.sp with
  | [] => .error .emptyStackPanic
  | top :: rest =>
    .ok { c with registers := { c.registers with pc := top, sp := rest } }

/-- src/emu/chip8.rs `Chip8::jmp`: `pc = opcode & 0x0FFF`. -/
def jmp (c : Chip8) (opcode : Nat) : Chip8 :=
  { c with registers := { c.registers with pc := opcode &&& 0x0FFF } }

/-- src/emu/chip8.rs `Chip8::call`: push `pc + WORD_SIZE`, then
`pc = opcode & 0x0FFF`. -/
def call (c : Chip8) (opcode : Nat) : Chip8 :=
  { c with registers :=
      { c.registers with
          sp := u16 (c.registers.pc + WORD_SIZE) :: c.registers.sp,
          pc := opcode &&& 0x0FFF } }

/-- src/emu/chip8.rs `Chip8::se`: skip next word when `v[x] == kk`. -/
def se (c : Chip8) (opcode : Nat) : Chip8 :=
  let x := (opcode &&& 0x0F00) >>> 8
  let val := u8 (opcode &&& 0x00FF)
  if c.registers.v x = val then
    { c with registers := { c.registers with pc := u16 (c.registers.pc + WORD_SIZE * 2) } }
  else
    { c with registers := { c.registers with pc := u16 (c.registers.pc + WORD_SIZE) } }

/-- src/emu/chip8.rs `Chip8::sne`: skip next word when `v[x] != kk`. -/
def sne (c : Chip8) (opcode : Nat) : Chip8 :=
  let x := (opcode &&& 0x0F00) >>> 8
  let val := u8 (opcode &&& 0x00FF)
  if c.registers.v x ≠ val then
    { c with registers := { c.registers with pc := u16 (c.registers.pc + WORD_SIZE * 2) } }
  else
    { c with registers := { c.registers with pc := u16 (c.registers.pc + WORD_SIZE) } }

/-- src/emu/chip8.rs `Chip8::ser`: skip next word when `v[x] == v[y]`. -/
def ser (c : Chip8) (opcode : Nat) : Chip8 :=
  let x := (opcode &&& 0x0F00) >>> 8
  let y := (opcode &&& 0x00F0) >>> 4
  if c.registers.v x = c.registers.v y then
    { c with registers := { c.registers with pc := u16 (c.registers.pc + WORD_SIZE * 2) } }
  else
    { c with registers := { c.registers with pc := u16 (c.registers.pc + WORD_SIZE) } }

/-- src/emu/chip8.rs `Chip8::ld`: `v[x] = kk`. -/
def ld (c : Chip8) (opcode : Nat) : Chip8 :=
  let x := (opcode &&& 0x0F00) >>> 8
  { c with registers :=
      { c.registers.vset x (u8 (opcode &&& 0x00FF)) with
          pc := u16 (c.registers.pc + WORD_SIZE) } }

/-- src/emu/chip8.rs `Chip8::add`: `v[x] = v[x].wrapping_add(kk)`. -/
def add (c : Chip8) (opcode : Nat) : Chip8 :=
  let x := (opcode &&& 0x0F00) >>> 8
  let val := u8 (opcode &&& 0x00FF)
  { c with registers :=
      { c.registers.vset x (u8 (c.registers.v x + val)) with
          pc := u16 (c.registers.pc + WORD_SIZE) } }

/-- src/emu/chip8.rs `Chip8::ldr`: `v[x] = v[y]`. -/
def ldr (c : Chip8) (opcode : Nat) : Chip8 :=
  let x := (opcode &&& 0x0F00) >>> 8
  let y := (opcode &&& 0x00F0) >>> 4
  { c with registers :=
      { c.registers.vset x (c.registers.v y) with
          pc := u16 (c.registers.pc + WORD_SIZE) } }

/-- src/emu/chip8.rs `Chip8::or`: `v[x] |= v[y]`. -/
def orInstr (c : Chip8) (opcode : Nat) : Chip8 :=
  let x := (opcode &&& 0x0F00) >>> 8
  let y := (opcode &&& 0x00F0) >>> 4
  { c with registers :=
      { c.registers.vset x (c.registers.v x ||| c.registers.v y) with
          pc := u16 (c.registers.pc + WORD_SIZE) } }

/-- src/emu/chip8.rs `Chip8::and`: `v[x] &= v[y]`. -/
def andInstr (c : Chip8) (opcode : Nat) : Chip8 :=
  let x := (opcode &&& 0x0F00) >>> 8
  let y := (opcode &&& 0x00F0) >>> 4
  { c with registers :=
      { c.registers.vset x (c.registers.v x &&& c.registers.v y) with
          pc := u16 (c.registers.pc + WORD_SIZE) } }

/-- src/emu/chip8.rs `Chip8::xor`: `v[x] ^= v[y]`. -/
def xorInstr (c : Chip8) (opcode : Nat) : Chip8 :=
  let x := (opcode &&& 0x0F00) >>> 8
  let y := (opcode &&& 0x00F0) >>> 4
  { c with registers :=
      { c.registers.vset x (c.registers.v x ^^^ c.registers.v y) with
          pc := u16 (c.registers.pc + WORD_SIZE) } }

/-- src/emu/chip8.rs `Chip8::addr`: the 16-bit sum is computed first, then
`v[x] = sum as u8` is written, then VF is written from the carry test — so
for `x = 0xF` the flag write lands last. -/
def addr (c : Chip8) (opcode : Nat) : Chip8 :=
  let x := (opcode &&& 0x0F00) >>> 8
  let y := (opcode &&& 0x00F0) >>> 4
  let sum := c.registers.v x + c.registers.v y
  let r1 := c.registers.vset x (u8 sum)
  let r2 := r1.vset 0xF (if sum > 0xFF then 1 else 0)
  { c with registers := { r2 with pc := u16 (r2.pc + WORD_SIZE) } }

/-- Wrapping `u8` subtraction (`u8::wrapping_sub`). -/
def wrappingSubU8 (a b : Nat) : Nat := (a % 256 + (256 - b % 256)) % 256

/-- src/emu/chip8.rs `Chip8::sub`:
`diff = v[x].wrapping_sub(v[y]) as i8`, `v[x] = diff as u8` first, then
VF from the sign of `diff`. -/
def sub (c : Chip8) (opcode : Nat) : Chip8 :=
  let x := (opcode &&& 0x0F00) >>> 8
  let y := (opcode &&& 0x00F0) >>> 4
  let diff : Int := toI8 (wrappingSubU8 (c.registers.v x) (c.registers.v y))
  let r1 := c.registers.vset x (i8AsU8 diff)
  let r2 := r1.vset 0xF (if diff < 0 then 1 else 0)
  { c with registers := { r2 with pc := u16 (r2.pc + WORD_SIZE) } }

/-- src/emu/chip8.rs `Chip8::shr`: VF is written first from `v[x] & 1`,
then `v[x] >>= 1` reads the (possibly just overwritten, when `x = 0xF`)
register and shifts it. -/
def shr (c : Chip8) (opcode : Nat) : Chip8 :=
  let x := (opcode &&& 0x0F00) >>> 8
  let r1 := c.registers.vset 0xF (c.registers.v x &&& 0x1)
  let r2 := r1.vset x (r1.v x >>> 1)
  { c with registers := { r2 with pc := u16 (r2.pc + WORD_SIZE) } }

/-- src/emu/chip8.rs `Chip8::subn`:
`diff = v[y] as i8 - v[x] as i8` (wrapping `i8` subtraction in release
mode), `v[x] = diff as u8` first, then VF from the sign of `diff`. -/
def subn (c : Chip8) (opcode : Nat) : Chip8 :=
  let x := (opcode &&& 0x0F00) >>> 8
  let y := (opcode &&& 0x00F0) >>> 4
  let diff : Int := i8wrap (toI8 (c.registers.v y) - toI8 (c.registers.v x))
  let r1 := c.registers.vset x (i8AsU8 diff)
  let r2 := r1.vset 0xF (if diff < 0 then 1 else 0)
  { c with registers := { r2 with pc := u16 (r2.pc + WORD_SIZE) } }

/-- src/emu/chip8.rs `Chip8::shl`: VF is written first from
`(v[x] & 0x80) >> 7`, then `v[x] <<= 1` reads the (possibly just
overwritten, when `x = 0xF`) register and shifts it, wrapping to `u8`. -/
def shl (c : Chip8) (opcode : Nat) : Chip8 :=
  let x := (opcode &&& 0x0F00) >>> 8
  let r1 := c.registers.vset 0xF ((c.registers.v x &&& 0x80) >>> 7)
  let r2 := r1.vset x (u8 (r1.v x <<< 1))
  { c with registers := { r2 with pc := u16 (r2.pc + WORD_SIZE) } }

/-- src/emu/chip8.rs `Chip8::sner`: skip next word when `v[x] != v[y]`. -/
def sner (c : Chip8) (opcode : Nat) : Chip8 :=
  let x := (opcode &&& 0x0F00) >>> 8
  let y := (opcode &&& 0x00F0) >>> 4
  if c.registers.v x ≠ c.registers.v y then
    { c with registers := { c.registers with pc := u16 (c.registers.pc + WORD_SIZE * 2) } }
  else
    { c with registers := { c.registers with pc := u16 (c.registers.pc + WORD_SIZE) } }

/-- src/emu/chip8.rs `Chip8::ldri`: `i = opcode & 0x0FFF`. -/
def ldri (c : Chip8) (opcode : Nat) : Chip8 :=
  { c with registers :=
      { c.registers with i := opcode &&& 0x0FFF,
                         pc := u16 (c.registers.pc + WORD_SIZE) } }

/-- src/emu/chip8.rs `Chip8::jmpv0`: `pc = v[0] as u16 + (opcode & 0x0FFF)`. -/
def jmpv0 (c : Chip8) (opcode : Nat) : Chip8 :=
  { c with registers :=
      { c.registers with pc := u16 (c.registers.v 0 + (opcode &&& 0x0FFF)) } }

/-- src/emu/chip8.rs `Chip8::rnd`: `num = rnd_engine.gen_range(0..0xFF)`
(the oracle field, reduced into the sampled half-open range), then
`v[x] = num & kk`. -/
def rnd (c : Chip8) (opcode : Nat) : Chip8 :=
  let x := (opcode &&& 0x0F00) >>> 8
  let val := u8 (opcode &&& 0x0FF)
  let num := c.rnd_engine % 0xFF
  { c with registers :=
      { c.registers.vset x (num &&& val) with
          pc := u16 (c.registers.pc + WORD_SIZE) } }

/-- One sprite bit of src/emu/chip8.rs `Chip8::drw`:
`(sprite_byte >> (7 - bit)) & 1`. -/
def spriteBit (sprite_byte bit : Nat) : Nat := (sprite_byte >>> (7 - bit)) &&& 1

/-- The inner `for bit in 0..8` body of `Chip8::drw` for one bit position:
XOR the sprite bit into the wrapped screen cell and raise the collision
flag when both the sprite bit and the previous screen pixel are 1. -/
def drwStep (sprite_byte x_pos y_pos byteIdx : Nat) (acc : Display × Nat)
    (bit : Nat) : Display × Nat :=
  let sprite_pixel := spriteBit sprite_byte bit
  let screen_x := (x_pos + bit) % GRID_WIDTH
  let screen_y := (y_pos + byteIdx) % GRID_HEIGHT
  let screen_pixel := acc.1.get_pixel screen_x screen_y
  let d := acc.1.set_pixel screen_x screen_y (sprite_pixel ^^^ screen_pixel)
  (d, if sprite_pixel = 1 ∧ screen_pixel = 1 then 1 else acc.2)

/-- The first `k` iterations (bits `0, 1, …, k-1`, in loop order) of the
inner `for bit in 0..8` loop of `Chip8::drw`. -/
def drwRowAux (sprite_byte x_pos y_pos byteIdx : Nat) :
    Nat → Display × Nat → Display × Nat
  | 0, acc => acc
  | k + 1, acc =>
    drwStep sprite_byte x_pos y_pos byteIdx
      (drwRowAux sprite_byte x_pos y_pos byteIdx k acc) k

/-- One full row (all 8 bits) of `Chip8::drw`. -/
def drwRow (sprite_byte x_pos y_pos byteIdx : Nat) (acc : Display × Nat) :
    Display × Nat :=
  drwRowAux sprite_byte x_pos y_pos byteIdx 8 acc

/-- The first `n` iterations (rows `0, 1, …, n-1`, in loop order) of the
outer `for byte in 0..n` loop of `Chip8::drw`, reading each sprite byte at
`i + byte` and propagating a read failure. -/
def drwRows (ram : Ram) (i x_pos y_pos : Nat) :
    Nat → Display × Nat → Except RamError (Display × Nat)
  | 0, acc => .ok acc
  | n + 1, acc => do
    let acc1 ← drwRows ram i x_pos y_pos n acc
    let sprite_byte ← ram.read_byte (i + n)
    .ok (drwRow sprite_byte x_pos y_pos n acc1)

/-- src/emu/chip8.rs `Chip8::drw`: positions from `v[x]`, `v[y]`, VF zeroed
before the loops, the XOR blit over `n` rows, then `display.draw()` and the
PC step. A failing sprite-byte read is returned as the `OutOfBound` error
(the partially blitted display of the abandoned run is not modelled — the
run loop aborts on this error). -/
def drw (c : Chip8) (opcode : Nat) : Except RamError Chip8 := do
  let x := (opcode &&& 0x0F00) >>> 8
  let y := (opcode &&& 0x00F0) >>> 4
  let n := opcode &&& 0x000F
  let x_pos := c.registers.v x
  let y_pos := c.registers.v y
  let res ← drwRows c.ram c.registers.i x_pos y_pos n (c.display, 0)
  .ok { c with display := res.1.draw,
               registers :=
                 { c.registers.vset 0xF res.2 with
                     pc := u16 (c.registers.pc + WORD_SIZE) } }

/-- src/emu/chip8.rs `Chip8::skp`: a positive match also clears the key
state before the double PC step. -/
def skp (c : Chip8) (opcode : Nat) : Chip8 :=
  let x := (opcode &&& 0x0F00) >>> 8
  let key := c.registers.v x
  if c.keyboard.is_key_pressed key then
    { c with keyboard := c.keyboard.release_key,
             registers := { c.registers with pc := u16 (c.registers.pc + WORD_SIZE * 2) } }
  else
    { c with registers := { c.registers with pc := u16 (c.registers.pc + WORD_SIZE) } }

/-- src/emu/chip8.rs `Chip8::sknp`: skips when the key does not match; a
match clears the key state before the single PC step. -/
def sknp (c : Chip8) (opcode : Nat) : Chip8 :=
  let x := (opcode &&& 0x0F00) >>> 8
  let key := c.registers.v x
  if ¬ c.keyboard.is_key_pressed key then
    { c with registers := { c.registers with pc := u16 (c.registers.pc + WORD_SIZE * 2) } }
  else
    { c with keyboard := c.keyboard.release_key,
             registers := { c.registers with pc := u16 (c.registers.pc + WORD_SIZE) } }

/-- src/emu/chip8.rs `Chip8::get_delay_timer`: `ticks = elapsed_ms / 16`,
saturating subtraction of ticks from the stored base value. -/
def get_delay_timer (c : Chip8) : Nat :=
  let ticks := c.delay_elapsed_ms / 16
  if ticks ≥ c.registers.dt then 0 else c.registers.dt - ticks

/-- src/emu/chip8.rs `Chip8::ldrdt`: `v[x] = get_delay_timer()`. -/
def ldrdt (c : Chip8) (opcode : Nat) : Chip8 :=
  let x := (opcode &&& 0x0F00) >>> 8
  { c with registers :=
      { c.registers.vset x (get_delay_timer c) with
          pc := u16 (c.registers.pc + WORD_SIZE) } }

/-- src/emu/chip8.rs `Chip8::ldk`: `if let Some(val) = get_pressed_key()`
writes `v[x]`; either way the PC advances by one word. -/
def ldk (c : Chip8) (opcode : Nat) : Chip8 :=
  let x := (opcode &&& 0x0F00) >>> 8
  let regs :=
    match c.keyboard.get_pressed_key with
    | some val => c.registers.vset x val
    | none => c.registers
  { c with registers := { regs with pc := u16 (c.registers.pc + WORD_SIZE) } }

/-- src/emu/chip8.rs `Chip8::lddtr` via `set_delay_timer`: resets the decay
reference instant and stores `v[x]` as the timer base. -/
def lddtr (c : Chip8) (opcode : Nat) : Chip8 :=
  let x := (opcode &&& 0x0F00) >>> 8
  { c with delay_elapsed_ms := 0,
           registers :=
             { c.registers with dt := c.registers.v x,
                                pc := u16 (c.registers.pc + WORD_SIZE) } }

/-- src/emu/chip8.rs `Chip8::ldrst`: sound is not implemented; only the PC
step happens. -/
def ldrst (c : Chip8) (_opcode : Nat) : Chip8 :=
  { c with registers := { c.registers with pc := u16 (c.registers.pc + WORD_SIZE) } }

/-- src/emu/chip8.rs `Chip8::addri`: `i += v[x] as u16` (wrapping in
release mode). -/
def addri (c : Chip8) (opcode : Nat) : Chip8 :=
  let x := (opcode &&& 0x0F00) >>> 8
  { c with registers :=
      { c.registers with i := u16 (c.registers.i + c.registers.v x),
                         pc := u16 (c.registers.pc + WORD_SIZE) } }

/-- src/emu/chip8.rs `Chip8::ldsr`: `i = v[x] as u16 * 5` (5 bytes per
font glyph). -/
def ldsr (c : Chip8) (opcode : Nat) : Chip8 :=
  let x := (opcode &&& 0x0F00) >>> 8
  { c with registers :=
      { c.registers with i := u16 (c.registers.v x * 5),
                         pc := u16 (c.registers.pc + WORD_SIZE) } }

/-- src/emu/chip8.rs `Chip8::ldb`: three checked writes of `v[x] / 100`,
`v[x] % 100`, `v[x] % 10` at `i`, `i + 1`, `i + 2`. A failing write is
returned as the error (earlier writes of the abandoned run are not
modelled — the run loop aborts on this error). -/
def ldb (c : Chip8) (opcode : Nat) : Except RamError Chip8 := do
  let x := (opcode &&& 0x0F00) >>> 8
  let r1 ← c.ram.write_byte c.registers.i (c.registers.v x / 100)
  let r2 ← r1.write_byte (c.registers.i + 1) (c.registers.v x % 100)
  let r3 ← r2.write_byte (c.registers.i + 2) (c.registers.v x % 10)
  .ok { c with ram := r3,
               registers := { c.registers with pc := u16 (c.registers.pc + WORD_SIZE) } }

/-- The first `k` iterations of the `for i in 0..=x` write loop of
`Chip8::ldrir`: registers `v[0], …, v[k-1]` written at `i, …, i + k - 1`. -/
def storeRegsAux (ram : Ram) (base : Nat) (v : Nat → Nat) :
    Nat → Except RamError Ram
  | 0 => .ok ram
  | k + 1 => do
    let r ← storeRegsAux ram base v k
    r.write_byte (base + k) (v k)

/-- src/emu/chip8.rs `Chip8::ldrir`: write `v[0..=x]` to memory at `i`,
then `i += x + 1` and the PC step. -/
def ldrir (c : Chip8) (opcode : Nat) : Except RamError Chip8 := do
  let x := (opcode &&& 0x0F00) >>> 8
  let r ← storeRegsAux c.ram c.registers.i c.registers.v (x + 1)
  .ok { c with ram := r,
               registers :=
                 { c.registers with
                     i := u16 (c.registers.i + x + 1),
                     pc := u16 (c.registers.pc + WORD_SIZE) } }

/-- The first `k` iterations of the `for i in 0..=x` read loop of
`Chip8::ldrri`: registers `v[0], …, v[k-1]` loaded from `i, …, i + k - 1`. -/
def loadRegsAux (ram : Ram) (base : Nat) (v : Nat → Nat) :
    Nat → Except RamError (Nat → Nat)
  | 0 => .ok v
  | k + 1 => do
    let f ← loadRegsAux ram base v k
    let b ← ram.read_byte (base + k)
    .ok fun j => if j = k then b else f j

/-- src/emu/chip8.rs `Chip8::ldrri`: load `v[0..=x]` from memory at `i`,
then `i += x + 1` and the PC step. -/
def ldrri (c : Chip8) (opcode : Nat) : Except RamError Chip8 := do
  let x := (opcode &&& 0x0F00) >>> 8
  let f ← loadRegsAux c.ram c.registers.i c.registers.v (x + 1)
  .ok { c with registers :=
      { c.registers with
          v := f,
          i := u16 (c.registers.i + x + 1),
          pc := u16 (c.registers.pc + WORD_SIZE) } }

/-- src/emu/chip8.rs `Chip8::execute`: dispatch on the decoded tag. The
four memory-touching instructions propagate `RamError`; `ret` can hit the
empty-stack panic; everything else returns `Ok`. -/
def execute (instruction : Instruction) (opcode : Nat) (c : Chip8) :
    Except ExecFailure Chip8 :=
  match instruction with
  | .CLS => .ok (cls c)
  | .RET => ret c
  | .JMP => .ok (jmp c opcode)
  | .CALL => .ok (call c opcode)
  | .SE => .ok (se c opcode)
  | .SNE => .ok (sne c opcode)
  | .SER => .ok (ser c opcode)
  | .LD => .ok (ld c opcode)
  | .ADD => .ok (add c opcode)
  | .LDR => .ok (ldr c opcode)
  | .OR => .ok (orInstr c opcode)
  | .AND => .ok (andInstr c opcode)
  | .XOR => .ok (xorInstr c opcode)
  | .ADDR => .ok (addr c opcode)
  | .SUB => .ok (sub c opcode)
  | .SHR => .ok (shr c opcode)
  | .SUBN => .ok (subn c opcode)
  | .SHL => .ok (shl c opcode)
  | .SNER => .ok (sner c opcode)
  | .LDRI => .ok (ldri c opcode)
  | .JMPV0 => .ok (jmpv0 c opcode)
  | .RND => .ok (rnd c opcode)
  | .DRW => (drw c opcode).mapError .ramError
  | .SKP => .ok (skp c opcode)
  | .SKNP => .ok (sknp c opcode)
  | .LDRDT => .ok (ldrdt c opcode)
  | .LDK => .ok (ldk c opcode)
  | .LDDTR => .ok (lddtr c opcode)
  | .LDRST => .ok (ldrst c opcode)
  | .ADDRI => .ok (addri c opcode)
  | .LDSR => .ok (ldsr c opcode)
  | .LDB => (ldb c opcode).mapError .ramError
  | .LDRIR => (ldrir c opcode).mapError .ramError
  | .LDRRI => (ldrri c opcode).mapError .ramError

/-- A concrete freshly-constructed machine: blank display, no key, font
ROM only, the register file of `Registers::new` (PC at the program start,
empty call stack, zeroed general registers). -/
def sampleChip8 : Chip8 :=
  { display := ⟨fun _ => 0⟩
    keyboard := Keyboard.new
    ram := Ram.new
    registers := { pc := 0x200, i := 0, dt := 50, sp := [], v := fun _ => 0 }
    rnd_engine := 0
    delay_elapsed_ms := 0 }

/-- A machine whose only nonzero register is `v[0xF] = 3`. -/
def sampleVF3 : Chip8 :=
  { sampleChip8 with
      registers := { sampleChip8.registers with v := fun j => if j = 0xF then 3 else 0 } }

/-- A machine whose only nonzero register is `v[0xF] = 100`. -/
def sampleVF100 : Chip8 :=
  { sampleChip8 with
      registers := { sampleChip8.registers with v := fun j => if j = 0xF then 100 else 0 } }

/-- A machine with `v[0] = 255` and `i = 512`. -/
def sampleV255 : Chip8 :=
  { sampleChip8 with
      registers := { sampleChip8.registers with
                       i := 512,
                       v := fun j => if j = 0 then 255 else 0 } }

/-- A machine whose keyboard currently holds key `0x5`. -/
def sampleKey5 : Chip8 := { sampleChip8 with keyboard := ⟨0x5⟩ }

/-- A machine whose only nonzero register is `v[0] = 5`. -/
def sampleV05 : Chip8 :=
  { sampleChip8 with
      registers := { sampleChip8.registers with v := fun j => if j = 0 then 5 else 0 } }

/-- A machine pointing `i` at address 80: the first byte past the font
table, which holds 0 in a fresh `Ram` — an all-zero one-row sprite. -/
def sampleDrawZero : Chip8 :=
  { sampleChip8 with registers := { sampleChip8.registers with i := 80 } }

/-- The sprite bit position that lands on screen column `sx` when the
sprite is drawn at column `xp`: the inverse of `t ↦ (xp + t) % 64`. -/
def bitOf (xp sx : Nat) : Nat := (sx + 64 - xp % 64) % 64

/-- The sprite row that lands on screen row `sy` when the sprite is drawn
at row `yp`: the inverse of `b ↦ (yp + b) % 32`. -/
def rowOf (yp sy : Nat) : Nat := (sy + 32 - yp % 32) % 32

/-- The flat framebuffer index of the cell hit by sprite row `b`, bit `t`,
for a sprite positioned at `(xp, yp)`. -/
def cellIdx (xp yp b t : Nat) : Nat := ((yp + b) % 32) * 64 + (xp + t) % 64

/-! ## Bit-mask arithmetic helpers -/

/-- Low-nibble mask is reduction mod 16. -/
theorem and_000F_eq (n : Nat) : n &&& 0x000F = n % 16 := by
  have h := Nat.and_pow_two_sub_one_eq_mod n 4
  norm_num at h
  exact h

/-- Low-byte mask is reduction mod 256. -/
theorem and_00FF_eq (n : Nat) : n &&& 0x00FF = n % 256 := by
  have h := Nat.and_pow_two_sub_one_eq_mod n 8
  norm_num at h
  exact h

/-- Top-nibble mask extracts bits 12–15 in place. -/
theorem and_F000_eq (n : Nat) : n &&& 0xF000 = n / 4096 % 16 * 4096 := by
  have hmask : (0xF000 : Nat) = (2 ^ 4 - 1) <<< 12 := by
    rw [Nat.shiftLeft_eq]
    norm_num
  have hrhs : n / 4096 % 16 * 4096 = (n >>> 12 % 2 ^ 4) <<< 12 := by
    rw [Nat.shiftLeft_eq, Nat.shiftRight_eq_div_pow]
    norm_num
  rw [hmask, hrhs]
  apply Nat.eq_of_testBit_eq
  intro j
  rw [Nat.testBit_and, Nat.testBit_shiftLeft, Nat.testBit_shiftLeft,
      Nat.testBit_mod_two_pow, Nat.testBit_shiftRight,
      Nat.testBit_two_pow_sub_one]
  by_cases h12 : 12 ≤ j
  · have hj : 12 + (j - 12) = j := by omega
    simp [h12, hj, Bool.and_comm]
  · simp [h12]

/-! ## C1 — the decoder matches the documented opcode table -/

/-- C1. `decode` is a pure function and, on every opcode, returns exactly
the instruction tag of the documented table of spec section 4.2 (exact
matches 0x00E0/0x00EE, top-nibble classes 0x1–0xD, the sub-dispatched
0x8/0xE/0xF entries), and `DecodeFailure` on every opcode outside that
table — `decodeSpecTable` is that table written from the spec's words. -/
theorem C1_decode_matches_documented_table (opcode : Nat) :
    decode opcode = decodeSpecTable opcode := by
  unfold decode decodeSpecTable
  simp only [and_F000_eq, and_000F_eq, and_00FF_eq]
  by_cases hE0 : opcode = 0x00E0
  · simp [hE0]
  by_cases hEE : opcode = 0x00EE
  · simp [hE0, hEE]
  simp only [hE0, hEE, if_false]
  have h16 : opcode / 4096 % 16 < 16 := Nat.mod_lt _ (by norm_num)
  set t := opcode / 4096 % 16 with ht
  interval_cases t <;> norm_num

/-! ## C2 — totality of the non-memory instructions, `subn` semantics -/

/-- C2 counterexample. For `x = 0xF`, `y = 0x0` (opcode `0x8F07`) with
`v[0xF] = 0`, `v[0] = 5`: the claim predicts `V[x] = (5 + 256 - 0) % 256
= 5`, but after storing the difference the code overwrites `v[0xF]` with
the borrow flag, leaving it 0. -/
theorem C2_counterexample :
    ¬ ((subn sampleV05 0x8F07).registers.v 0xF =
        (sampleV05.registers.v 0 + 256 - sampleV05.registers.v 0xF) % 256) := by
  decide

/-- C2 (amended). Every instruction other than `DRW`, `LDB`, `LDRIR`,
`LDRRI` executes without error on every machine state (provided `RET`
only runs with a non-empty call stack), and for `x ≠ 0xF` `subn` stores
the wrapping 8-bit difference `v[y] − v[x]`; when `x = 0xF` the stored
difference is overwritten by the borrow-flag write that follows it (see
the counterexample). -/
theorem C2_non_memory_instructions_cannot_fail :
    (∀ (inst : Instruction) (opcode : Nat) (c : Chip8),
        inst ≠ .DRW → inst ≠ .LDB → inst ≠ .LDRIR → inst ≠ .LDRRI →
        (inst = .RET → c.registers.sp ≠ []) →
        ∃ cNext, execute inst opcode c = .ok cNext) ∧
    (∀ (c : Chip8) (opcode : Nat),
        (opcode &&& 0x0F00) >>> 8 ≠ 0xF →
        c.registers.v ((opcode &&& 0x0F00) >>> 8) < 256 →
        c.registers.v ((opcode &&& 0x00F0) >>> 4) < 256 →
        (subn c opcode).registers.v ((opcode &&& 0x0F00) >>> 8) =
          (c.registers.v ((opcode &&& 0x00F0) >>> 4) + 256 -
            c.registers.v ((opcode &&& 0x0F00) >>> 8)) % 256) := by
  constructor
  · intro inst opcode c hD hB hSR hLR hR
    cases inst <;> first
      | exact ⟨_, rfl⟩
      | exact absurd rfl hD
      | exact absurd rfl hB
      | exact absurd rfl hSR
      | exact absurd rfl hLR
      | · show ∃ cNext, ret c = .ok cNext
          match hsp : c.registers.sp with
          | [] => exact absurd hsp (hR rfl)
          | top :: rest =>
            refine ⟨{ c with registers := { c.registers with pc := top, sp := rest } }, ?_⟩
            simp [ret, hsp]
  · intro c opcode hx hvx hvy
    simp only [subn, Registers.vset]
    simp only [if_pos rfl, if_neg hx]
    unfold i8AsU8 i8wrap toI8
    split_ifs <;> omega

/-- Witness for C2 at a concrete machine: `CLS` executes, and `subn` on
`v[1] = 0`, `v[2] = 0` stores `(0 + 256 - 0) % 256 = 0`. -/
theorem C2_witness :
    (∃ cNext, execute .CLS 0x00E0 sampleChip8 = .ok cNext) ∧
    (subn sampleChip8 0x8120).registers.v 1 = 0 :=
  ⟨C2_non_memory_instructions_cannot_fail.1 .CLS 0x00E0 sampleChip8
      (by decide) (by decide) (by decide) (by decide) (by decide),
   C2_non_memory_instructions_cannot_fail.2 sampleChip8 0x8120
      (by decide) (by decide) (by decide)⟩

/-! ## C3 — Draw: XOR self-inverse and the collision flag -/

/-- `bitOf` inverts the wrapped column map on its image. -/
theorem bitOf_inv (xp t : Nat) (ht : t < 64) : bitOf xp ((xp + t) % 64) = t := by
  unfold bitOf
  omega

/-- `rowOf` inverts the wrapped row map on its image. -/
theorem rowOf_inv (yp b : Nat) (hb : b < 32) : rowOf yp ((yp + b) % 32) = b := by
  unfold rowOf
  omega

/-- A screen column determines the sprite bit position it came from. -/
theorem bitOf_eq_imp (xp idx k : Nat) (hk : k < 64)
    (h : bitOf xp (idx % 64) = k) : idx % 64 = (xp + k) % 64 := by
  unfold bitOf at h
  omega

theorem cellIdx_div (xp yp b t : Nat) : cellIdx xp yp b t / 64 = (yp + b) % 32 := by
  unfold cellIdx
  omega

theorem cellIdx_mod (xp yp b t : Nat) : cellIdx xp yp b t % 64 = (xp + t) % 64 := by
  unfold cellIdx
  omega

/-- A framebuffer index on the sprite row with the right bit position is
the corresponding sprite cell. -/
theorem eq_cellIdx_of (xp yp b k idx : Nat) (hk : k < 64)
    (hrow : idx / 64 = (yp + b) % 32) (hbit : bitOf xp (idx % 64) = k) :
    idx = cellIdx xp yp b k := by
  have hmod := bitOf_eq_imp xp idx k hk hbit
  unfold cellIdx
  omega

/-- A screen row determines the sprite row it came from. -/
theorem rowOf_eq_imp (yp sy m : Nat) (hsy : sy < 32) (h : rowOf yp sy = m) :
    sy = (yp + m) % 32 := by
  unfold rowOf at h
  omega

/-- Reading the register just written by `vset`. -/
theorem Registers.vset_self (r : Registers) (x w : Nat) :
    (r.vset x w).v x = w := by
  simp [Registers.vset]

theorem xor_one_eq_one_iff (p : Nat) : 1 ^^^ p = 1 ↔ p = 0 := by
  constructor
  · intro h
    have h2 := Nat.xor_cancel_left 1 p
    rw [h] at h2
    simpa using h2.symm
  · intro h
    simp [h]

/-- Characterization of the inner bit loop of `drw`: the first `k` bits of
a row XOR the sprite bits into their (pairwise distinct) wrapped cells,
and the collision flag becomes 1 exactly when one of those bits hits an
on-pixel of the incoming framebuffer. -/
theorem drwRowAux_spec (sb xp yp b : Nat) (k : Nat) (hk : k ≤ 64)
    (d : Display) (vf0 : Nat) :
    (∀ idx, (drwRowAux sb xp yp b k (d, vf0)).1.grid idx =
      if idx / 64 = (yp + b) % 32 ∧ bitOf xp (idx % 64) < k then
        spriteBit sb (bitOf xp (idx % 64)) ^^^ d.grid idx
      else d.grid idx) ∧
    ((∃ t, t < k ∧ spriteBit sb t = 1 ∧ d.grid (cellIdx xp yp b t) = 1) →
      (drwRowAux sb xp yp b k (d, vf0)).2 = 1) ∧
    ((¬ ∃ t, t < k ∧ spriteBit sb t = 1 ∧ d.grid (cellIdx xp yp b t) = 1) →
      (drwRowAux sb xp yp b k (d, vf0)).2 = vf0) := by
  induction k with
  | zero =>
    refine ⟨?_, ?_, ?_⟩
    · intro idx
      rw [if_neg]
      · rfl
      · rintro ⟨-, h⟩
        omega
    · rintro ⟨t, ht, -⟩
      omega
    · intro h
      rfl
  | succ k ih =>
    obtain ⟨ihg, ihv1, ihv0⟩ := ih (by omega)
    have hwidx : cellIdx xp yp b k / 64 = (yp + b) % 32 := cellIdx_div xp yp b k
    have hwbit : bitOf xp (cellIdx xp yp b k % 64) = k := by
      rw [cellIdx_mod]
      exact bitOf_inv xp k (by omega)
    have hcg : ((yp + b) % GRID_HEIGHT) * GRID_WIDTH + (xp + k) % GRID_WIDTH =
        cellIdx xp yp b k := rfl
    -- the grid cell touched at bit k still holds its original value
    have hprev : (drwRowAux sb xp yp b k (d, vf0)).1.grid (cellIdx xp yp b k) =
        d.grid (cellIdx xp yp b k) := by
      rw [ihg, if_neg]
      rintro ⟨-, hlt⟩
      omega
    have hstep : drwRowAux sb xp yp b (k + 1) (d, vf0) =
        drwStep sb xp yp b (drwRowAux sb xp yp b k (d, vf0)) k := rfl
    refine ⟨?_, ?_, ?_⟩
    · intro idx
      rw [hstep]
      unfold drwStep Display.set_pixel Display.get_pixel
      simp only []
      by_cases hidx : idx = ((yp + b) % GRID_HEIGHT) * GRID_WIDTH + (xp + k) % GRID_WIDTH
      · have hidx2 : idx = cellIdx xp yp b k := hidx.trans hcg
        rw [if_pos hidx, hidx2, hcg, hprev, if_pos ⟨hwidx, by omega⟩, hwbit]
      · rw [if_neg hidx, ihg]
        by_cases hc : idx / 64 = (yp + b) % 32 ∧ bitOf xp (idx % 64) < k
        · rw [if_pos hc, if_pos ⟨hc.1, by omega⟩]
        · rw [if_neg hc, if_neg]
          rintro ⟨hrow, hlt⟩
          rcases Nat.lt_or_ge (bitOf xp (idx % 64)) k with hlt2 | hge
          · exact hc ⟨hrow, hlt2⟩
          · have hbk : bitOf xp (idx % 64) = k := by omega
            have heq : idx = cellIdx xp yp b k :=
              eq_cellIdx_of xp yp b k idx (by omega) hrow hbk
            exact hidx (heq.trans hcg.symm)
    · rintro ⟨t, ht, hsp, hg⟩
      rw [hstep]
      unfold drwStep Display.get_pixel
      simp only []
      by_cases htk : t = k
      · subst htk
        have hcond : spriteBit sb t = 1 ∧
            (drwRowAux sb xp yp b t (d, vf0)).1.grid
              (((yp + b) % GRID_HEIGHT) * GRID_WIDTH + (xp + t) % GRID_WIDTH) = 1 := by
          rw [hcg, hprev]
          exact ⟨hsp, hg⟩
        rw [if_pos hcond]
      · have hvf : (drwRowAux sb xp yp b k (d, vf0)).2 = 1 :=
          ihv1 ⟨t, by omega, hsp, hg⟩
        by_cases hcoll : spriteBit sb k = 1 ∧
            (drwRowAux sb xp yp b k (d, vf0)).1.grid
              (((yp + b) % GRID_HEIGHT) * GRID_WIDTH + (xp + k) % GRID_WIDTH) = 1
        · rw [if_pos hcoll]
        · rw [if_neg hcoll]
          exact hvf
    · intro hnone
      rw [hstep]
      unfold drwStep Display.get_pixel
      simp only []
      rw [if_neg]
      · exact ihv0 fun ⟨t, ht, hsp, hg⟩ => hnone ⟨t, by omega, hsp, hg⟩
      · rintro ⟨hsp, hg⟩
        rw [hcg, hprev] at hg
        exact hnone ⟨k, by omega, hsp, hg⟩

/-- Characterization of the outer row loop of `drw` over `n ≤ 32` rows:
rows land on pairwise distinct wrapped screen rows, each cell receives a
single XOR, and the collision flag becomes 1 exactly when some sprite bit
hits an on-pixel of the incoming framebuffer. -/
theorem drwRows_spec (ram : Ram) (i xp yp : Nat) (n : Nat) (hn : n ≤ 32)
    (hreads : ∀ b, b < n → i + b < RAM_SIZE) (d : Display) (vf0 : Nat) :
    ∃ D VF, drwRows ram i xp yp n (d, vf0) = .ok (D, VF) ∧
      (∀ idx, D.grid idx =
        if idx / 64 < 32 ∧ rowOf yp (idx / 64) < n ∧ bitOf xp (idx % 64) < 8 then
          spriteBit (ram.data (i + rowOf yp (idx / 64))) (bitOf xp (idx % 64)) ^^^
            d.grid idx
        else d.grid idx) ∧
      ((∃ b, b < n ∧ ∃ t, t < 8 ∧ spriteBit (ram.data (i + b)) t = 1 ∧
          d.grid (cellIdx xp yp b t) = 1) → VF = 1) ∧
      ((¬ ∃ b, b < n ∧ ∃ t, t < 8 ∧ spriteBit (ram.data (i + b)) t = 1 ∧
          d.grid (cellIdx xp yp b t) = 1) → VF = vf0) := by
  induction n with
  | zero =>
    refine ⟨d, vf0, rfl, ?_, ?_, ?_⟩
    · intro idx
      rw [if_neg]
      rintro ⟨-, h, -⟩
      omega
    · rintro ⟨b, hb, -⟩
      omega
    · intro h
      rfl
  | succ n ih =>
    obtain ⟨D, VF, heq, hgrid, hv1, hv0⟩ :=
      ih (by omega) (fun b hb => hreads b (by omega))
    have hread : ram.read_byte (i + n) = .ok (ram.data (i + n)) := by
      unfold Ram.read_byte
      rw [if_pos (hreads n (by omega))]
    obtain ⟨rowg, rowv1, rowv0⟩ :=
      drwRowAux_spec (ram.data (i + n)) xp yp n 8 (by omega) D VF
    -- the cells of row n are untouched by the first n rows
    have hDcell : ∀ t, t < 8 → D.grid (cellIdx xp yp n t) = d.grid (cellIdx xp yp n t) := by
      intro t ht
      rw [hgrid, if_neg]
      rintro ⟨-, hrow, -⟩
      rw [cellIdx_div, rowOf_inv yp n (by omega)] at hrow
      omega
    have hstep : drwRows ram i xp yp (n + 1) (d, vf0) =
        .ok (drwRowAux (ram.data (i + n)) xp yp n 8 (D, VF)) := by
      show (do
        let acc1 ← drwRows ram i xp yp n (d, vf0)
        let sprite_byte ← ram.read_byte (i + n)
        Except.ok (drwRow sprite_byte xp yp n acc1)) =
        .ok (drwRowAux (ram.data (i + n)) xp yp n 8 (D, VF))
      rw [heq, hread]
      rfl
    refine ⟨(drwRowAux (ram.data (i + n)) xp yp n 8 (D, VF)).1,
            (drwRowAux (ram.data (i + n)) xp yp n 8 (D, VF)).2, ?_, ?_, ?_, ?_⟩
    · rw [hstep]
    · intro idx
      rw [rowg idx]
      by_cases hA : idx / 64 = (yp + n) % 32 ∧ bitOf xp (idx % 64) < 8
      · rw [if_pos hA]
        have hdiv : idx / 64 < 32 := by omega
        have hrowOf : rowOf yp (idx / 64) = n := by
          rw [hA.1]
          exact rowOf_inv yp n (by omega)
        have hD : D.grid idx = d.grid idx := by
          rw [hgrid, if_neg]
          rintro ⟨-, hrow, -⟩
          omega
        rw [hD, if_pos ⟨hdiv, by omega, hA.2⟩, hrowOf]
      · rw [if_neg hA, hgrid]
        by_cases hB : idx / 64 < 32 ∧ rowOf yp (idx / 64) < n ∧ bitOf xp (idx % 64) < 8
        · rw [if_pos hB, if_pos ⟨hB.1, by omega, hB.2.2⟩]
        · rw [if_neg hB, if_neg]
          rintro ⟨hdiv, hrow, hbit⟩
          rcases Nat.lt_or_ge (rowOf yp (idx / 64)) n with hlt | hge
          · exact hB ⟨hdiv, hlt, hbit⟩
          · have hr : rowOf yp (idx / 64) = n := by omega
            exact hA ⟨rowOf_eq_imp yp (idx / 64) n hdiv hr, hbit⟩
    · rintro ⟨b, hb, t, ht, hsp, hg⟩
      by_cases hbn : b = n
      · subst hbn
        refine rowv1 ⟨t, ht, hsp, ?_⟩
        rw [hDcell t ht]
        exact hg
      · have hVF : VF = 1 := hv1 ⟨b, by omega, t, ht, hsp, hg⟩
        by_cases hrown : ∃ t, t < 8 ∧ spriteBit (ram.data (i + n)) t = 1 ∧
            D.grid (cellIdx xp yp n t) = 1
        · exact rowv1 hrown
        · rw [rowv0 hrown]
          exact hVF
    · intro hnone
      have hVF : VF = vf0 := hv0 fun ⟨b, hb, t, ht, hsp, hg⟩ =>
        hnone ⟨b, by omega, t, ht, hsp, hg⟩
      have hrow0 : ¬ ∃ t, t < 8 ∧ spriteBit (ram.data (i + n)) t = 1 ∧
          D.grid (cellIdx xp yp n t) = 1 := by
        rintro ⟨t, ht, hsp, hg⟩
        rw [hDcell t ht] at hg
        exact hnone ⟨n, by omega, t, ht, hsp, hg⟩
      rw [rowv0 hrow0]
      exact hVF

/-- `drw` in terms of its row loop: display replaced, VF written, PC
stepped. -/
theorem drw_eq_ok (c : Chip8) (opcode : Nat) (D : Display) (VF : Nat)
    (h : drwRows c.ram c.registers.i
        (c.registers.v ((opcode &&& 0x0F00) >>> 8))
        (c.registers.v ((opcode &&& 0x00F0) >>> 4))
        (opcode &&& 0x000F) (c.display, 0) = .ok (D, VF)) :
    drw c opcode = .ok
      { c with display := D,
               registers := { c.registers.vset 0xF VF with
                                pc := u16 (c.registers.pc + WORD_SIZE) } } := by
  show (do
      let res ← drwRows c.ram c.registers.i
        (c.registers.v ((opcode &&& 0x0F00) >>> 8))
        (c.registers.v ((opcode &&& 0x00F0) >>> 4))
        (opcode &&& 0x000F) (c.display, 0)
      Except.ok { c with display := res.1.draw,
                         registers := { c.registers.vset 0xF res.2 with
                                          pc := u16 (c.registers.pc + WORD_SIZE) } }) = _
  rw [h]
  rfl

/-- C3 counterexample. An all-zero one-row sprite (`n = 1`, `I = 80`
pointing at a zero byte of a fresh machine) drawn twice leaves the second
draw reporting `VF = 0`, not 1 as the claim demands for every sprite. -/
theorem C3_counterexample :
    (((drw sampleDrawZero 0xD001).bind fun c1 => drw c1 0xD001).map
        fun c2 => c2.registers.v 0xF) = .ok 0 ∧ (0 : Nat) ≠ 1 :=
  ⟨rfl, by decide⟩

/-- C3 (amended). For every sprite (any `n` rows readable at `I`) and
every position (taken from registers other than `VF`, which the first draw
overwrites): drawing twice restores every framebuffer cell; the second
draw reports `VF = 1` exactly when some sprite bit lands on a cell that
was off before the first draw (so for any nonzero sprite over a blank
framebuffer it reports 1, but not for an all-zero sprite, nor when every
set sprite bit covered an on-pixel); and the first draw onto a
framebuffer where no sprite bit overlaps an on-pixel reports `VF = 0`. -/
theorem C3_draw_twice (c : Chip8) (opcode : Nat)
    (hxF : (opcode &&& 0x0F00) >>> 8 ≠ 0xF)
    (hyF : (opcode &&& 0x00F0) >>> 4 ≠ 0xF)
    (hreads : ∀ b, b < opcode &&& 0x000F → c.registers.i + b < RAM_SIZE) :
    ∃ c1 c2, drw c opcode = .ok c1 ∧ drw c1 opcode = .ok c2 ∧
      (∀ idx, c2.display.grid idx = c.display.grid idx) ∧
      (c2.registers.v 0xF = 1 ↔
        ∃ b, b < (opcode &&& 0x000F) ∧ ∃ t, t < 8 ∧
          spriteBit (c.ram.data (c.registers.i + b)) t = 1 ∧
          c.display.grid
            (cellIdx (c.registers.v ((opcode &&& 0x0F00) >>> 8))
              (c.registers.v ((opcode &&& 0x00F0) >>> 4)) b t) = 0) ∧
      ((¬ ∃ b, b < (opcode &&& 0x000F) ∧ ∃ t, t < 8 ∧
          spriteBit (c.ram.data (c.registers.i + b)) t = 1 ∧
          c.display.grid
            (cellIdx (c.registers.v ((opcode &&& 0x0F00) >>> 8))
              (c.registers.v ((opcode &&& 0x00F0) >>> 4)) b t) = 1) →
        c1.registers.v 0xF = 0) := by
  have hn32 : (opcode &&& 0x000F) ≤ 32 := by
    rw [and_000F_eq]
    have := Nat.mod_lt opcode (show 0 < 16 by norm_num)
    omega
  obtain ⟨D1, VF1, h1eq, h1g, h1v1, h1v0⟩ :=
    drwRows_spec c.ram c.registers.i
      (c.registers.v ((opcode &&& 0x0F00) >>> 8))
      (c.registers.v ((opcode &&& 0x00F0) >>> 4))
      (opcode &&& 0x000F) hn32 hreads c.display 0
  obtain ⟨D2, VF2, h2eq, h2g, h2v1, h2v0⟩ :=
    drwRows_spec c.ram c.registers.i
      (c.registers.v ((opcode &&& 0x0F00) >>> 8))
      (c.registers.v ((opcode &&& 0x00F0) >>> 4))
      (opcode &&& 0x000F) hn32 hreads D1 0
  -- every covered cell: the blit is a pointwise XOR with the sprite bit
  have hcov1 : ∀ b t, b < (opcode &&& 0x000F) → t < 8 →
      D1.grid (cellIdx (c.registers.v ((opcode &&& 0x0F00) >>> 8))
          (c.registers.v ((opcode &&& 0x00F0) >>> 4)) b t) =
        spriteBit (c.ram.data (c.registers.i + b)) t ^^^
          c.display.grid (cellIdx (c.registers.v ((opcode &&& 0x0F00) >>> 8))
            (c.registers.v ((opcode &&& 0x00F0) >>> 4)) b t) := by
    intro b t hb ht
    have hd := cellIdx_div (c.registers.v ((opcode &&& 0x0F00) >>> 8))
      (c.registers.v ((opcode &&& 0x00F0) >>> 4)) b t
    have hro : rowOf (c.registers.v ((opcode &&& 0x00F0) >>> 4))
        (cellIdx (c.registers.v ((opcode &&& 0x0F00) >>> 8))
          (c.registers.v ((opcode &&& 0x00F0) >>> 4)) b t / 64) = b := by
      rw [hd]
      exact rowOf_inv _ b (by omega)
    have hbo : bitOf (c.registers.v ((opcode &&& 0x0F00) >>> 8))
        (cellIdx (c.registers.v ((opcode &&& 0x0F00) >>> 8))
          (c.registers.v ((opcode &&& 0x00F0) >>> 4)) b t % 64) = t := by
      rw [cellIdx_mod]
      exact bitOf_inv _ t (by omega)
    rw [h1g, if_pos ⟨by rw [hd]; omega, by rw [hro]; omega, by rw [hbo]; omega⟩,
        hro, hbo]
  have hcov2 : ∀ b t, b < (opcode &&& 0x000F) → t < 8 →
      D2.grid (cellIdx (c.registers.v ((opcode &&& 0x0F00) >>> 8))
          (c.registers.v ((opcode &&& 0x00F0) >>> 4)) b t) =
        spriteBit (c.ram.data (c.registers.i + b)) t ^^^
          D1.grid (cellIdx (c.registers.v ((opcode &&& 0x0F00) >>> 8))
            (c.registers.v ((opcode &&& 0x00F0) >>> 4)) b t) := by
    intro b t hb ht
    have hd := cellIdx_div (c.registers.v ((opcode &&& 0x0F00) >>> 8))
      (c.registers.v ((opcode &&& 0x00F0) >>> 4)) b t
    have hro : rowOf (c.registers.v ((opcode &&& 0x00F0) >>> 4))
        (cellIdx (c.registers.v ((opcode &&& 0x0F00) >>> 8))
          (c.registers.v ((opcode &&& 0x00F0) >>> 4)) b t / 64) = b := by
      rw [hd]
      exact rowOf_inv _ b (by omega)
    have hbo : bitOf (c.registers.v ((opcode &&& 0x0F00) >>> 8))
        (cellIdx (c.registers.v ((opcode &&& 0x0F00) >>> 8))
          (c.registers.v ((opcode &&& 0x00F0) >>> 4)) b t % 64) = t := by
      rw [cellIdx_mod]
      exact bitOf_inv _ t (by omega)
    rw [h2g, if_pos ⟨by rw [hd]; omega, by rw [hro]; omega, by rw [hbo]; omega⟩,
        hro, hbo]
  refine ⟨_, _, drw_eq_ok c opcode D1 VF1 h1eq, drw_eq_ok _ opcode D2 VF2 ?_,
    ?_, ?_, ?_⟩
  · -- the second pass runs from the same registers, memory, and index
    simp only [Registers.vset]
    simp [hxF, hyF]
    exact h2eq
  · -- the display is restored after the second draw
    intro idx
    simp only []
    rw [h2g idx]
    by_cases hcond : idx / 64 < 32 ∧
        rowOf (c.registers.v ((opcode &&& 0x00F0) >>> 4)) (idx / 64) <
          (opcode &&& 0x000F) ∧
        bitOf (c.registers.v ((opcode &&& 0x0F00) >>> 8)) (idx % 64) < 8
    · rw [if_pos hcond, h1g idx, if_pos hcond, ← Nat.xor_assoc, Nat.xor_self,
        Nat.zero_xor]
    · rw [if_neg hcond, h1g idx, if_neg hcond]
  · -- the second draw's collision flag
    simp only [Registers.vset_self]
    constructor
    · intro hVF2
      by_cases hex : ∃ b, b < (opcode &&& 0x000F) ∧ ∃ t, t < 8 ∧
          spriteBit (c.ram.data (c.registers.i + b)) t = 1 ∧
          D1.grid (cellIdx (c.registers.v ((opcode &&& 0x0F00) >>> 8))
            (c.registers.v ((opcode &&& 0x00F0) >>> 4)) b t) = 1
      · obtain ⟨b, hb, t, ht, hsp, hg⟩ := hex
        refine ⟨b, hb, t, ht, hsp, ?_⟩
        rw [hcov1 b t hb ht, hsp] at hg
        exact (xor_one_eq_one_iff _).mp hg
      · rw [h2v0 hex] at hVF2
        cases hVF2
    · rintro ⟨b, hb, t, ht, hsp, hg⟩
      refine h2v1 ⟨b, hb, t, ht, hsp, ?_⟩
      rw [hcov1 b t hb ht, hsp, hg]
      rfl
  · -- first draw with no overlap reports no collision
    intro hnone
    simp only [Registers.vset_self]
    exact h1v0 hnone

/-- Witness for C3: the font-0 glyph (5 rows at `I = 0`) drawn twice at
the origin of the blank fresh machine. -/
theorem C3_witness :
    (((0xD005 &&& 0x0F00) >>> 8 ≠ 0xF) ∧ ((0xD005 &&& 0x00F0) >>> 4 ≠ 0xF) ∧
      (∀ b, b < 0xD005 &&& 0x000F → sampleChip8.registers.i + b < RAM_SIZE)) ∧
    (∃ c1 c2, drw sampleChip8 0xD005 = .ok c1 ∧ drw c1 0xD005 = .ok c2 ∧
      (∀ idx, c2.display.grid idx = sampleChip8.display.grid idx) ∧
      (c2.registers.v 0xF = 1 ↔
        ∃ b, b < (0xD005 &&& 0x000F) ∧ ∃ t, t < 8 ∧
          spriteBit (sampleChip8.ram.data (sampleChip8.registers.i + b)) t = 1 ∧
          sampleChip8.display.grid
            (cellIdx (sampleChip8.registers.v ((0xD005 &&& 0x0F00) >>> 8))
              (sampleChip8.registers.v ((0xD005 &&& 0x00F0) >>> 4)) b t) = 0) ∧
      ((¬ ∃ b, b < (0xD005 &&& 0x000F) ∧ ∃ t, t < 8 ∧
          spriteBit (sampleChip8.ram.data (sampleChip8.registers.i + b)) t = 1 ∧
          sampleChip8.display.grid
            (cellIdx (sampleChip8.registers.v ((0xD005 &&& 0x0F00) >>> 8))
              (sampleChip8.registers.v ((0xD005 &&& 0x00F0) >>> 4)) b t) = 1) →
        c1.registers.v 0xF = 0)) :=
  ⟨⟨by decide, by decide, by decide⟩,
   C3_draw_twice sampleChip8 0xD005 (by decide) (by decide) (by decide)⟩

/-! ## C4 — shift instructions: flag vs shifted-out bit -/

/-- C4 counterexample. For `x = 0xF` (opcode `0x8F06`, prior `v[0xF] = 3`)
the claim predicts `VF = 3 &&& 1 = 1` and `V[x] = 3 >>> 1 = 1`; the code
first writes the flag into `v[0xF]` and then shifts that same register, so
`v[0xF]` ends at `(3 &&& 1) >>> 1 = 0`, refuting both equations. -/
theorem C4_counterexample :
    ¬ ((shr sampleVF3 0x8F06).registers.v 0xF = sampleVF3.registers.v 0xF &&& 1 ∧
       (shr sampleVF3 0x8F06).registers.v 0xF = sampleVF3.registers.v 0xF >>> 1) := by
  decide

set_option maxRecDepth 2000 in
/-- For byte values, masking bit 7 and shifting equals the plain shift. -/
theorem topBit_of_lt_256 : ∀ v : Fin 256, (v.val &&& 0x80) >>> 7 = v.val >>> 7 := by
  decide

/-- C4 (amended). For every register index `x ≠ 0xF` and 8-bit `v = V[x]`:
after `shr`, `VF = v &&& 1` and `V[x] = v >>> 1`; after `shl`,
`VF = v >>> 7` (the top bit) and `V[x] = (v <<< 1) % 256`. When `x = 0xF`
the flag write and the shift alias the same register and the claim fails
(see the counterexample). -/
theorem C4_shift_flag_captures_shifted_out_bit (c : Chip8) (opcode : Nat)
    (hx : (opcode &&& 0x0F00) >>> 8 ≠ 0xF)
    (hv : c.registers.v ((opcode &&& 0x0F00) >>> 8) < 256) :
    (shr c opcode).registers.v 0xF = c.registers.v ((opcode &&& 0x0F00) >>> 8) &&& 1 ∧
    (shr c opcode).registers.v ((opcode &&& 0x0F00) >>> 8) =
      c.registers.v ((opcode &&& 0x0F00) >>> 8) >>> 1 ∧
    (shl c opcode).registers.v 0xF = c.registers.v ((opcode &&& 0x0F00) >>> 8) >>> 7 ∧
    (shl c opcode).registers.v ((opcode &&& 0x0F00) >>> 8) =
      (c.registers.v ((opcode &&& 0x0F00) >>> 8) <<< 1) % 256 := by
  set x := (opcode &&& 0x0F00) >>> 8 with hxdef
  have hne : x ≠ 0xF := hx
  refine ⟨?_, ?_, ?_, ?_⟩
  · simp [shr, Registers.vset, hne, Ne.symm hne]
  · simp [shr, Registers.vset, hne, Ne.symm hne]
  · simp [shl, Registers.vset, hne, Ne.symm hne]
    exact topBit_of_lt_256 ⟨_, hv⟩
  · simp [shl, Registers.vset, hne, Ne.symm hne, u8]

/-- Witness for C4 at `x = 1`, `v[1] = 0` (opcode `0x8106`). -/
theorem C4_witness :
    ((0x8106 &&& 0x0F00) >>> 8 ≠ 0xF ∧
      sampleVF3.registers.v ((0x8106 &&& 0x0F00) >>> 8) < 256) ∧
    (shr sampleVF3 0x8106).registers.v 0xF = 0 ∧
    (shr sampleVF3 0x8106).registers.v 1 = 0 ∧
    (shl sampleVF3 0x8106).registers.v 0xF = 0 ∧
    (shl sampleVF3 0x8106).registers.v 1 = 0 :=
  ⟨⟨by decide, by decide⟩,
   C4_shift_flag_captures_shifted_out_bit sampleVF3 0x8106 (by decide) (by decide)⟩

/-! ## C5 — AddCarry: carry flag and low byte -/

/-- C5 counterexample. For `x = 0xF`, `y = 0x0` (opcode `0x8F04`) with
`v[0xF] = 100`, `v[0] = 0`: the claim predicts `V[x] = (100 + 0) % 256 =
100`, but the carry-flag write lands after the sum write into the same
register, leaving `v[0xF] = 0`. -/
theorem C5_counterexample :
    ¬ ((addr sampleVF100 0x8F04).registers.v 0xF =
        (sampleVF100.registers.v 0xF + sampleVF100.registers.v 0) % 256) := by
  decide

/-- C5 (amended). For all register contents: `VF = 1` after `addr` iff the
unwrapped sum `V[x] + V[y]` exceeds 255 (this holds for every `x`,
including `0xF`, because the flag write lands last); and for `x ≠ 0xF`,
`V[x]` equals the low 8 bits of the sum (for `x = 0xF` the flag overwrites
the sum — see the counterexample). -/
theorem C5_addcarry_flag_iff_overflow (c : Chip8) (opcode : Nat) :
    ((addr c opcode).registers.v 0xF = 1 ↔
      255 < c.registers.v ((opcode &&& 0x0F00) >>> 8) +
        c.registers.v ((opcode &&& 0x00F0) >>> 4)) ∧
    ((opcode &&& 0x0F00) >>> 8 ≠ 0xF →
      (addr c opcode).registers.v ((opcode &&& 0x0F00) >>> 8) =
        (c.registers.v ((opcode &&& 0x0F00) >>> 8) +
          c.registers.v ((opcode &&& 0x00F0) >>> 4)) % 256) := by
  constructor
  · by_cases hgt : 255 < c.registers.v ((opcode &&& 0x0F00) >>> 8) +
        c.registers.v ((opcode &&& 0x00F0) >>> 4)
    · simp [addr, Registers.vset, hgt]
    · simp [addr, Registers.vset, hgt]
  · intro hx
    simp [addr, Registers.vset, hx, Ne.symm hx, u8]

/-- Witness for C5 at `x = 1`, `y = 2`, both registers zero (opcode
`0x8124`): the flag is 0 (sum is 0, not above 255) and `v[1] = 0`. -/
theorem C5_witness :
    ((0x8124 &&& 0x0F00) >>> 8 ≠ 0xF ∧
      ¬ ((addr sampleChip8 0x8124).registers.v 0xF = 1) ∧
      (addr sampleChip8 0x8124).registers.v 1 = 0) :=
  ⟨by decide,
   fun h => by
     have h2 := (C5_addcarry_flag_iff_overflow sampleChip8 0x8124).1.mp h
     revert h2
     decide,
   (C5_addcarry_flag_iff_overflow sampleChip8 0x8124).2 (by decide)⟩

/-! ## C6 — StoreBCD -/

/-- C6 counterexample. `ldb` on `v[0] = 255`, `i = 512` stores the triple
`(2, 55, 5)`: the middle byte is `255 % 100 = 55`, not the tens digit
`255 / 10 % 10 = 5`, and `55` is not a decimal digit. -/
theorem C6_counterexample :
    ((ldb sampleV255 0xF033).map fun cNext =>
        (cNext.ram.data 512, cNext.ram.data 513, cNext.ram.data 514)) =
      .ok (2, 55, 5) ∧
    ¬ (55 < 10 ∧ (55 : Nat) = 255 / 10 % 10) :=
  ⟨rfl, by decide⟩

/-- C6 (amended). When all three writes are in bounds, `ldb` stores
`V[x] / 100`, `V[x] % 100`, `V[x] % 10` at `I`, `I + 1`, `I + 2`, leaves
every other byte unchanged and advances PC one word; the first and third
bytes are the hundreds and ones decimal digits of an 8-bit `V[x]`, but the
middle byte is the remainder mod 100, not the tens digit, so the triple is
not the binary-coded-decimal decomposition. -/
theorem C6_storebcd_bytes (c : Chip8) (opcode : Nat)
    (hi : c.registers.i + 2 < RAM_SIZE) :
    ∃ cNext, ldb c opcode = .ok cNext ∧
      cNext.ram.data c.registers.i =
        c.registers.v ((opcode &&& 0x0F00) >>> 8) / 100 ∧
      cNext.ram.data (c.registers.i + 1) =
        c.registers.v ((opcode &&& 0x0F00) >>> 8) % 100 ∧
      cNext.ram.data (c.registers.i + 2) =
        c.registers.v ((opcode &&& 0x0F00) >>> 8) % 10 ∧
      (∀ a, a ≠ c.registers.i → a ≠ c.registers.i + 1 →
        a ≠ c.registers.i + 2 → cNext.ram.data a = c.ram.data a) ∧
      cNext.registers.pc = u16 (c.registers.pc + WORD_SIZE) ∧
      (c.registers.v ((opcode &&& 0x0F00) >>> 8) < 256 →
        c.registers.v ((opcode &&& 0x0F00) >>> 8) / 100 < 10 ∧
        c.registers.v ((opcode &&& 0x0F00) >>> 8) % 10 < 10) := by
  have h0 : c.registers.i < RAM_SIZE := by omega
  have h1 : c.registers.i + 1 < RAM_SIZE := by omega
  refine ⟨{ c with
      ram := ⟨fun a =>
        if a = c.registers.i + 2 then
          c.registers.v ((opcode &&& 0x0F00) >>> 8) % 10
        else if a = c.registers.i + 1 then
          c.registers.v ((opcode &&& 0x0F00) >>> 8) % 100
        else if a = c.registers.i then
          c.registers.v ((opcode &&& 0x0F00) >>> 8) / 100
        else c.ram.data a⟩,
      registers := { c.registers with pc := u16 (c.registers.pc + WORD_SIZE) } },
    ?_, ?_, ?_, ?_, ?_, ?_, ?_⟩
  · simp [ldb, Ram.write_byte, h0, h1, hi]
    rfl
  · simp
  · simp
  · simp
  · intro a ha0 ha1 ha2
    simp only []
    rw [if_neg ha2, if_neg ha1, if_neg ha0]
  · rfl
  · intro hv
    omega

/-- Witness for C6 at the concrete machine `sampleV255`. -/
theorem C6_witness :
    sampleV255.registers.i + 2 < RAM_SIZE ∧
    ∃ cNext, ldb sampleV255 0xF033 = .ok cNext ∧
      cNext.ram.data sampleV255.registers.i =
        sampleV255.registers.v ((0xF033 &&& 0x0F00) >>> 8) / 100 ∧
      cNext.ram.data (sampleV255.registers.i + 1) =
        sampleV255.registers.v ((0xF033 &&& 0x0F00) >>> 8) % 100 ∧
      cNext.ram.data (sampleV255.registers.i + 2) =
        sampleV255.registers.v ((0xF033 &&& 0x0F00) >>> 8) % 10 ∧
      (∀ a, a ≠ sampleV255.registers.i → a ≠ sampleV255.registers.i + 1 →
        a ≠ sampleV255.registers.i + 2 → cNext.ram.data a = sampleV255.ram.data a) ∧
      cNext.registers.pc = u16 (sampleV255.registers.pc + WORD_SIZE) ∧
      (sampleV255.registers.v ((0xF033 &&& 0x0F00) >>> 8) < 256 →
        sampleV255.registers.v ((0xF033 &&& 0x0F00) >>> 8) / 100 < 10 ∧
        sampleV255.registers.v ((0xF033 &&& 0x0F00) >>> 8) % 10 < 10) :=
  ⟨by decide, C6_storebcd_bytes sampleV255 0xF033 (by decide)⟩

/-! ## C7 — the font region -/

/-- C7 counterexample. `write_byte` into the font region succeeds and
mutates it: address 0 holds `0xF0` after construction, yet
`Ram::new().write_byte(0, 1)` (exactly the repository's own `write_byte`
unit test) makes it read back `1`. -/
theorem C7_counterexample :
    Ram.new.data 0 = 0xF0 ∧
    ((Ram.new.write_byte 0 1).map fun r => r.data 0) = .ok 1 :=
  ⟨rfl, rfl⟩

/-- C7 (amended). Construction fills `[0, 80)` with the fixed font table
and `load` never changes any byte below the program offset 512 (nor does a
failing load change anything); but the font region is not protected
against later writes: any `write_byte` at an in-range address — including
every font address — succeeds and stores the value there. -/
theorem C7_font_region (i : Nat) (hi : i < RESERVED_SIZE) :
    Ram.new.data i = fontSprites.getD i 0 ∧
    (∀ (r rNext : Ram) (bytes : List Nat), r.load bytes = .ok rNext →
      ∀ a, a < DEFAULT_PROGRAM_START_OFFSET → rNext.data a = r.data a) ∧
    (∀ (r : Ram) (bytes : List Nat) (e : RamError), r.load bytes = .error e →
      e = .notEnoughSpace) ∧
    (∀ (r : Ram) (value : Nat), ∃ rNext,
      r.write_byte i value = .ok rNext ∧ rNext.data i = value) := by
  refine ⟨?_, ?_, ?_, ?_⟩
  · simp [Ram.new, hi]
  · intro r rNext bytes hload a ha
    unfold Ram.load at hload
    split at hload
    · cases hload
      simp only []
      rw [if_neg]
      intro hcon
      unfold DEFAULT_PROGRAM_START_OFFSET at *
      omega
    · cases hload
  · intro r bytes e hload
    unfold Ram.load at hload
    split at hload
    · cases hload
    · cases hload
      rfl
  · intro r value
    have hlt : i < RAM_SIZE := by
      unfold RESERVED_SIZE at hi
      unfold RAM_SIZE
      omega
    refine ⟨⟨fun a => if a = i then value else r.data a⟩, ?_, ?_⟩
    · simp [Ram.write_byte, hlt]
    · simp

/-- Witness for C7 at font address 0. -/
theorem C7_witness :
    (0 < RESERVED_SIZE) ∧
    Ram.new.data 0 = fontSprites.getD 0 0 ∧
    (∃ rNext, Ram.new.write_byte 0 0xAA = .ok rNext ∧ rNext.data 0 = 0xAA) :=
  ⟨by decide, (C7_font_region 0 (by decide)).1,
   (C7_font_region 0 (by decide)).2.2.2 Ram.new 0xAA⟩

/-! ## C8 — loading a program image -/

/-- C8. `load` succeeds exactly when the image fits below the capacity:
on success byte `i` of the image is read back at `512 + i` for every
`i < len`, every address outside `[512, 512 + len)` is unchanged; an
oversized image fails with `NotEnoughSpace` (and, the model being
functional, leaves the memory value untouched). -/
theorem C8_load_program_image (r : Ram) (bytes : List Nat) :
    (bytes.length ≤ RAM_SIZE - DEFAULT_PROGRAM_START_OFFSET →
      ∃ rNext, r.load bytes = .ok rNext ∧
        (∀ i, i < bytes.length →
          rNext.read_byte (DEFAULT_PROGRAM_START_OFFSET + i) = .ok (bytes.getD i 0)) ∧
        (∀ a, a < DEFAULT_PROGRAM_START_OFFSET ∨
            DEFAULT_PROGRAM_START_OFFSET + bytes.length ≤ a →
          rNext.data a = r.data a)) ∧
    (RAM_SIZE - DEFAULT_PROGRAM_START_OFFSET < bytes.length →
      r.load bytes = .error .notEnoughSpace) := by
  constructor
  · intro hlen
    refine ⟨⟨fun a =>
        if DEFAULT_PROGRAM_START_OFFSET ≤ a ∧
            a - DEFAULT_PROGRAM_START_OFFSET < bytes.length then
          bytes.getD (a - DEFAULT_PROGRAM_START_OFFSET) 0
        else r.data a⟩, ?_, ?_, ?_⟩
    · simp only [Ram.load, if_pos hlen]
    · intro i hi
      have haddr : DEFAULT_PROGRAM_START_OFFSET + i < RAM_SIZE := by
        unfold RAM_SIZE DEFAULT_PROGRAM_START_OFFSET at *
        omega
      simp only [Ram.read_byte, if_pos haddr]
      rw [if_pos (by constructor <;> omega)]
      simp
    · intro a ha
      simp only []
      rw [if_neg]
      unfold DEFAULT_PROGRAM_START_OFFSET at *
      omega
  · intro hlen
    simp only [Ram.load]
    rw [if_neg]
    omega

/-- Witness for C8: a 3-byte image loads at 512 and reads back, and a
3585-byte image is rejected. -/
theorem C8_witness :
    ((List.replicate 3 7).length ≤ RAM_SIZE - DEFAULT_PROGRAM_START_OFFSET ∧
      ∃ rNext, Ram.new.load (List.replicate 3 7) = .ok rNext ∧
        (∀ i, i < (List.replicate 3 7).length →
          rNext.read_byte (DEFAULT_PROGRAM_START_OFFSET + i) =
            .ok ((List.replicate 3 7).getD i 0)) ∧
        (∀ a, a < DEFAULT_PROGRAM_START_OFFSET ∨
            DEFAULT_PROGRAM_START_OFFSET + (List.replicate 3 7).length ≤ a →
          rNext.data a = Ram.new.data a)) ∧
    (RAM_SIZE - DEFAULT_PROGRAM_START_OFFSET <
        (List.replicate 3585 9).length ∧
      Ram.new.load (List.replicate 3585 9) = .error .notEnoughSpace) :=
  ⟨⟨by decide, (C8_load_program_image Ram.new (List.replicate 3 7)).1 (by decide)⟩,
   ⟨by rw [List.length_replicate]; decide,
    (C8_load_program_image Ram.new (List.replicate 3585 9)).2
      (by rw [List.length_replicate]; decide)⟩⟩

/-! ## C9 — LoadFromKey -/

/-- C9. `ldk` is non-blocking: when the keyboard reports a pressed key
`k`, `V[x]` receives `k`; when it reports none, every general register is
unchanged; in both cases PC advances by exactly one word. -/
theorem C9_loadfromkey (c : Chip8) (opcode : Nat) (k : Nat) :
    (c.keyboard.get_pressed_key = some k →
      (ldk c opcode).registers.v ((opcode &&& 0x0F00) >>> 8) = k) ∧
    (c.keyboard.get_pressed_key = none →
      ∀ j, (ldk c opcode).registers.v j = c.registers.v j) ∧
    (ldk c opcode).registers.pc = u16 (c.registers.pc + WORD_SIZE) := by
  refine ⟨?_, ?_, ?_⟩
  · intro hk
    simp [ldk, hk, Registers.vset]
  · intro hk j
    simp [ldk, hk]
  · unfold ldk
    cases c.keyboard.get_pressed_key <;> rfl

/-- Witness for C9: with key `0x5` down, `ldk` (opcode `0xF30A`, so
`x = 3`) stores 5 in `v[3]` and steps PC from 0x200 to 0x202. -/
theorem C9_witness :
    sampleKey5.keyboard.get_pressed_key = some 5 ∧
    (ldk sampleKey5 0xF30A).registers.v 3 = 5 ∧
    (ldk sampleKey5 0xF30A).registers.pc = u16 (sampleKey5.registers.pc + WORD_SIZE) :=
  ⟨by decide,
   (C9_loadfromkey sampleKey5 0xF30A 5).1 (by decide),
   (C9_loadfromkey sampleKey5 0xF30A 5).2.2⟩

/-! ## C10 — key value 0x0 doubles as "no key" -/

/-- C10. In every keyboard state: `get_pressed_key` never returns
`some 0`; pressing the key mapped to `0x0` (the X key) produces exactly
the released state; `is_key_pressed 0` holds iff no key is reported
pressed; and consequently `skp` with `V[x] = 0` takes the skip (PC + 4)
whenever no key is down, and only then. -/
theorem C10_key_zero_means_no_key :
    (∀ kb : Keyboard, kb.get_pressed_key ≠ some 0) ∧
    (∀ kb : Keyboard, kb.press_key .x = kb.release_key) ∧
    (∀ kb : Keyboard, kb.is_key_pressed 0 = true ↔ kb.get_pressed_key = none) ∧
    (∀ (c : Chip8) (opcode : Nat),
      c.registers.v ((opcode &&& 0x0F00) >>> 8) = 0 →
      ((skp c opcode).registers.pc =
        (if c.keyboard.key = 0 then u16 (c.registers.pc + WORD_SIZE * 2)
         else u16 (c.registers.pc + WORD_SIZE)))) := by
  refine ⟨?_, ?_, ?_, ?_⟩
  · intro kb h
    unfold Keyboard.get_pressed_key at h
    by_cases hz : kb.key ≠ 0
    · rw [if_pos hz] at h
      exact hz (Option.some.inj h)
    · rw [if_neg hz] at h
      cases h
  · intro kb
    rfl
  · intro kb
    unfold Keyboard.is_key_pressed Keyboard.get_pressed_key
    constructor
    · intro h
      have hk : kb.key = 0 := by
        have := of_decide_eq_true h
        omega
      simp [hk]
    · intro h
      by_cases hz : kb.key ≠ 0
      · rw [if_pos hz] at h
        cases h
      · have hk : kb.key = 0 := by omega
        simp [hk]
  · intro c opcode hv
    unfold skp Keyboard.is_key_pressed
    simp only []
    rw [hv]
    by_cases hz : c.keyboard.key = 0
    · rw [if_pos hz, if_pos (by simp [hz])]
    · rw [if_neg hz, if_neg (by simp [hz])]

/-- Witness for C10: on the fresh machine (`v[x] = 0`, no key down) `skp`
with opcode `0xE09E` skips, landing PC at `u16 (0x200 + 4)`. -/
theorem C10_witness :
    sampleChip8.registers.v ((0xE09E &&& 0x0F00) >>> 8) = 0 ∧
    (skp sampleChip8 0xE09E).registers.pc =
      (if sampleChip8.keyboard.key = 0
       then u16 (sampleChip8.registers.pc + WORD_SIZE * 2)
       else u16 (sampleChip8.registers.pc + WORD_SIZE)) :=
  ⟨by decide, C10_key_zero_means_no_key.2.2.2 sampleChip8 0xE09E (by decide)⟩

end Chip8Emu
